import Mathlib

/-!
Verification of the error-batching Slack facility (`src/index.js`, class
`GrcSlack`) against its natural-language specification.

The JavaScript code is shallowly embedded: every method relevant to the
claims is translated into a pure, executable Lean function.  Mutable state
(the batch store) becomes explicit state passing, async/`Promise`
resolution or rejection becomes `Except Unit`, and the outcome of the
external transport call (`this.caller.grc_bfx.req`) is an explicit boolean
parameter (the transport is an external collaborator; only its resolved /
rejected outcome is observable to this code).
-/

set_option maxRecDepth 2000

namespace GrcSlack

/-! ## JSON values (external `JSON.stringify` collaborator)

Payloads and extras are arbitrary JS values serialised with the built-in
`JSON.stringify`.  We model them with a small JSON AST and a standard
serialiser (string escaping is elided; all concrete inputs used below are
escape-free). -/

inductive Json where
  | null
  | bool (b : Bool)
  | num (n : Int)
  | str (s : String)
  | arr (xs : List Json)
  | obj (fields : List (String × Json))

mutual

def Json.stringify : Json → String
  | .null => "null"
  | .bool true => "true"
  | .bool false => "false"
  | .num n => toString n
  | .str s => "\"" ++ s ++ "\""
  | .arr xs => "[" ++ Json.stringifyList xs ++ "]"
  | .obj fs => "\x7b" ++ Json.stringifyFields fs ++ "\x7d"

def Json.stringifyList : List Json → String
  | [] => ""
  | [x] => Json.stringify x
  | x :: rest => Json.stringify x ++ "," ++ Json.stringifyList rest

def Json.stringifyFields : List (String × Json) → String
  | [] => ""
  | [(k, v)] => "\"" ++ k ++ "\":" ++ Json.stringify v
  | (k, v) :: rest => "\"" ++ k ++ "\":" ++ Json.stringify v ++ "," ++ Json.stringifyFields rest

end

/-! ## JS error values

The `err` argument can be any JS value.  We model the fragment the code
observes: `null`/`undefined`, strings, and objects carrying an optional
`message` property and a `toString()` result.  (`Error` instances are
objects whose `message` is the construction string.) -/

inductive JsVal where
  | vNull
  | vUndef
  | vStr (s : String)
  | vObj (message : Option String) (toStr : String)
deriving DecidableEq, Repr

/-- `err?.message` — optional chaining: `undefined` for `null`/`undefined`,
the property otherwise (strings have no `message` property). -/
def JsVal.msgProp : JsVal → Option String
  | .vNull => none
  | .vUndef => none
  | .vStr _ => none
  | .vObj m _ => m

/-- `err?.toString()` — optional chaining short-circuits on
`null`/`undefined`; otherwise the value's string conversion. -/
def JsVal.toStrOpt : JsVal → Option String
  | .vNull => none
  | .vUndef => none
  | .vStr s => some s
  | .vObj _ t => some t

/-- `err.message` without optional chaining (used at entry creation,
src/index.js line 112): throws a `TypeError` when `err` is
`null`/`undefined`. -/
def JsVal.msgPropStrict : JsVal → Except Unit (Option String)
  | .vNull => .error ()
  | .vUndef => .error ()
  | .vStr _ => .ok none
  | .vObj m _ => .ok m

/-- JS `a || b` on an optional string: `b` when `a` is `undefined` or the
empty string (both falsy). -/
def jsOrS (a : Option String) (b : String) : String :=
  match a with
  | some s => if s = "" then b else s
  | none => b

/-- JS `a || b` on an optional number: `b` when `a` is `undefined` or `0`
(both falsy). -/
def jsOrNat (a : Option Nat) (b : Nat) : Nat :=
  match a with
  | some n => if n = 0 then b else n
  | none => b

/-! ## Configuration (§6 of the spec; `conf` in src/index.js) -/

structure ErrorBatchingConf where
  interval : Option Nat
  maxSize : Option Nat
  maxMessageLength : Option Nat
deriving DecidableEq, Repr

structure Conf where
  enable : Bool
  worker : Option String
  max_length : Option Nat
  channel : String
  env : Option String
  errorBatching : Option ErrorBatchingConf
deriving DecidableEq, Repr

/-! ## Fingerprinter (src/index.js lines 76–84)

`createHash('sha1').update(msg).digest('hex')` is the external `crypto`
collaborator; it is a fixed deterministic function of its input string, so
it is modelled as an explicit function parameter `hash`. -/

def _createErrorGroupKey (reqChannel sourceName : String) : String :=
  reqChannel ++ ":" ++ sourceName

/-- `const errorMsg = err?.message || err?.toString() || 'Unknown error'`
(src/index.js line 81). -/
def errorMsg (err : JsVal) : String :=
  jsOrS err.msgProp (jsOrS err.toStrOpt ("Unknown error"))

def _createErrorKey (hash : String → String) (reqChannel : String) (err : JsVal)
    (sourceName : String := "unknown") : String :=
  _createErrorGroupKey reqChannel sourceName ++ ":" ++ hash (errorMsg err)

/-! ## Notifier (`message`, src/index.js lines 48–64)

`message` returns `false` without dispatching when globally disabled;
otherwise it builds the `{ channel, text }` payload handed to the outbound
transport.  The transport round trip itself is external, so the model
returns the payload (`none` = disabled, nothing dispatched).
`rawText.slice(0, maxLength)` is the first `maxLength` characters, written
out over the character list. -/

structure SendPayload where
  channel : String
  text : String
deriving DecidableEq, Repr

def message (conf : Conf) (reqChannel : Option String) (msg : String) : Option SendPayload :=
  if conf.enable then
    let maxLength := jsOrNat conf.max_length 1024
    let env := match conf.env with
      | some e => if e = "" then "" else "Env: " ++ e ++ ", "
      | none => ""
    let rawText := env ++ msg
    let text := if rawText.length > maxLength then String.mk (rawText.data.take maxLength) else rawText
    let channel := jsOrS reqChannel conf.channel
    some ⟨channel, text⟩
  else none

/-- The settled outcome of `logError` (src/index.js lines 66–74), which
resolves to `message`'s result: when disabled it resolves `false`; when
enabled it settles like the single transport call (`dispatchOk` = the
transport promise resolved). -/
def logErrorOutcome (conf : Conf) (dispatchOk : Bool) : Except Unit Unit :=
  if conf.enable then (if dispatchOk then .ok () else .error ()) else .ok ()

/-! ## Batch store and error entries (§3 of the spec)

The backing store is the external `bfx-facs-lru` facility, used through
`get`/`set`/`clear`/`cache.length`/`Object.values(cache.cache)`.  It is
modelled at that interface as an insertion-ordered association list. -/

structure PayloadItem where
  payload : Json
  extras : List Json

structure ErrorEntry where
  errorMessage : Option String
  sourceName : String
  reqChannel : String
  payloads : List PayloadItem
  count : Nat
  firstSeen : Int
  lastSeen : Int

abbrev Store := List (String × ErrorEntry)

def storeGet : Store → String → Option ErrorEntry
  | [], _ => none
  | (k', v) :: rest, k => if k = k' then some v else storeGet rest k

def storeSet : Store → String → ErrorEntry → Store
  | [], k, v => [(k, v)]
  | (k', v') :: rest, k, v => if k = k' then (k, v) :: rest else (k', v') :: storeSet rest k v

/-- The payload-window update (src/index.js lines 128–133): push the new
pair, then `shift()` the oldest when the window exceeds 3. -/
def pushPayloadWindow (payloads : List PayloadItem) (item : PayloadItem) : List PayloadItem :=
  let payloads1 := payloads ++ [item]
  if payloads1.length > 3 then payloads1.tail else payloads1

/-! ## Enqueue (`logErrorEnqueue`, src/index.js lines 94–138) -/

/-- Arguments of a direct-log fallback invocation `this.logError(...)`. -/
structure FallbackCall where
  reqChannel : Option String
  err : JsVal
  sourceName : String
  payload : Json
  extras : List Json

structure EnqueueResult where
  result : Except Unit Unit
  batch : Option Store
  fallback : Option FallbackCall

/-- `logErrorEnqueue(reqChannel, err, sourceName, payload, ...extra)`.

`batch` is `this._errorBatch` (`none` when batching was not initialised),
`now` the clock reading, `dispatchOk` the outcome of the transport call
should the direct-log fallback run.  Inside the `try` block the one
modelled throwing operation is the `errorMessage: err.message` property
read at entry creation, which throws for `null`/`undefined` errors; the
`catch` block logs and awaits the fallback, whose rejection propagates. -/
def logErrorEnqueue (conf : Conf) (hash : String → String) (batch : Option Store)
    (reqChannel0 : Option String) (err : JsVal) (sourceName : String)
    (payload : Json) (extra : List Json) (now : Int) (dispatchOk : Bool) : EnqueueResult :=
  match batch with
  | none =>
    { result := logErrorOutcome conf dispatchOk
      batch := none
      fallback := some ⟨reqChannel0, err, sourceName, payload, extra⟩ }
  | some store =>
    let reqChannel := jsOrS reqChannel0 conf.channel
    let errorKey := _createErrorKey hash reqChannel err sourceName
    match storeGet store errorKey with
    | none =>
      match err.msgPropStrict with
      | .error _ =>
        { result := logErrorOutcome conf dispatchOk
          batch := some store
          fallback := some ⟨some reqChannel, err, sourceName, payload, extra⟩ }
      | .ok m =>
        let errorEntry : ErrorEntry :=
          { errorMessage := m, sourceName := sourceName, reqChannel := reqChannel
            payloads := [⟨payload, extra⟩], count := 1, firstSeen := now, lastSeen := now }
        { result := .ok (), batch := some (storeSet store errorKey errorEntry), fallback := none }
    | some errorEntry =>
      let errorEntry' : ErrorEntry :=
        { errorEntry with
          count := errorEntry.count + 1
          lastSeen := now
          payloads := pushPayloadWindow errorEntry.payloads ⟨payload, extra⟩ }
      { result := .ok (), batch := some (storeSet store errorKey errorEntry'), fallback := none }

/-! ## Formatter (`_sendBatchedErrorMessage`, src/index.js lines 183–217) -/

/-- Two-digit zero padding of a time component. -/
def pad2 (n : Int) : String :=
  let v := n.toNat
  if v < 10 then "0" ++ toString v else toString v

/-- Modelled from the spec: `formatTime` lives in `src/utils/date-time.js`,
which is not under `src/`; §4.4 states a timestamp renders as the
`HH:MM:SS` (UTC) time of day of the epoch-milliseconds value. -/
def formatTime (ms : Int) : String :=
  let total := (ms / 1000).emod 86400
  pad2 (total / 3600) ++ ":" ++ pad2 (total % 3600 / 60) ++ ":" ++ pad2 (total % 60)

/-- `_formatTimeRange` (src/index.js lines 219–228). -/
def _formatTimeRange (earliestTime latestTime : Int) : String :=
  if earliestTime = latestTime then formatTime earliestTime
  else formatTime earliestTime ++ " - " ++ formatTime latestTime

/-- JS template interpolation of a possibly-`undefined` string. -/
def jsShow (s : Option String) : String :=
  match s with
  | some v => v
  | none => "undefined"

/-- The two summary lines opening every report (src/index.js lines 186–187). -/
def summaryHeader (sourceName : String) (totalErrors numTypes : Nat) (timeRange : String) : String :=
  "*Batched Error Report - " ++ sourceName ++ "*\n" ++
    "*Summary:* " ++ toString totalErrors ++ " errors across " ++ toString numTypes ++
    " types (" ++ timeRange ++ ")\n\n"

/-- The per-type bullet and `Payloads:` lines (src/index.js lines 193–194);
the bullet glyph is the literal byte sequence present in the source. -/
def typeHeader (e : ErrorEntry) : String :=
  "â€¢ *" ++ jsShow e.errorMessage ++ "* (" ++ toString e.count ++ "x)\n" ++ "  Payloads:\n"

/-- One payload line, with the extras line appended when extras are present
(src/index.js lines 197–200). -/
def payloadLine (item : PayloadItem) : String :=
  let payloadStr := "    - " ++ item.payload.stringify ++ "\n"
  if item.extras.isEmpty then payloadStr
  else payloadStr ++ "     Extras: " ++ (Json.arr item.extras).stringify ++ "\n"

/-- The truncation marker (src/index.js line 203). -/
def markerFor (n : Nat) : String :=
  "\n... message truncated (" ++ toString n ++ " more error types)"

/-- The trailing note when more than 10 types were present and no
truncation occurred (src/index.js line 213). -/
def moreTypesNote (n : Nat) : String :=
  "\n... and " ++ toString n ++ " more error types"

/-- The inner payload loop (src/index.js lines 196–209): before appending
each payload line, when the total would exceed `maxLen` append `marker`
and stop (`truncated` flag in the second component). -/
def renderPayloads (maxLen : Nat) (marker : String) : List PayloadItem → String → String × Bool
  | [], msg => (msg, false)
  | item :: rest, msg =>
    let payloadStr := payloadLine item
    if msg.length + payloadStr.length > maxLen then (msg ++ marker, true)
    else renderPayloads maxLen marker rest (msg ++ payloadStr)

structure RenderResult where
  text : String
  truncated : Bool
  truncAt : Option Nat

/-- The outer loop over `errors.slice(0, 10)` (src/index.js lines
190–210).  `i` is the zero-based index into the full `errors` array
(`errors.indexOf(error)` for the pairwise-distinct entry objects produced
by grouping), `total` is `errors.length`; `truncAt` records the index of
the type being rendered when truncation hit. -/
def renderTypes (maxLen total : Nat) : List ErrorEntry → Nat → String → RenderResult
  | [], _, msg => ⟨msg, false, none⟩
  | e :: rest, i, msg =>
    let msg1 := msg ++ typeHeader e
    let r := renderPayloads maxLen (markerFor (total - i)) e.payloads msg1
    if r.2 then ⟨r.1, true, some i⟩
    else renderTypes maxLen total rest (i + 1) r.1

/-- `_sendBatchedErrorMessage` without the final `logError` call: the
rendered report text together with the truncation state. -/
def _sendBatchedErrorMessage (conf : Conf) (sourceName : String) (errors : List ErrorEntry)
    (totalErrors : Nat) (earliestTime latestTime : Int) : RenderResult :=
  let timeRange := _formatTimeRange earliestTime latestTime
  let header := summaryHeader sourceName totalErrors errors.length timeRange
  let maxLen := jsOrNat (conf.errorBatching.bind fun eb => eb.maxMessageLength) 4000
  let r := renderTypes maxLen errors.length (errors.take 10) 0 header
  if errors.length > 10 ∧ r.truncated = false then
    ⟨r.text ++ moreTypesNote (errors.length - 10), r.truncated, r.truncAt⟩
  else r

/-! ## Flush (`_processBatchedErrors`, src/index.js lines 140–181) -/

/-- One notification group (§3 of the spec).  `none` in the time fields
models the `Infinity` / `-Infinity` initialisers, i.e. no entry folded in
yet. -/
structure Group where
  errors : List ErrorEntry
  totalCount : Nat
  earliestTime : Option Int
  latestTime : Option Int

/-- Folding one entry into a group (src/index.js lines 161–169). -/
def groupAdd (g : Group) (e : ErrorEntry) : Group :=
  { errors := g.errors ++ [e]
    totalCount := g.totalCount + e.count
    earliestTime := some (match g.earliestTime with
      | none => e.firstSeen
      | some t => if e.firstSeen < t then e.firstSeen else t)
    latestTime := some (match g.latestTime with
      | none => e.lastSeen
      | some t => if e.lastSeen > t then e.lastSeen else t) }

/-- `Map` upsert keyed by the group key, preserving insertion order
(src/index.js lines 151–160: create an empty group on first sight of a
key, then fold the entry in). -/
def groupUpsert : List (String × Group) → String → ErrorEntry → List (String × Group)
  | [], k, e => [(k, groupAdd ⟨[], 0, none, none⟩ e)]
  | (k', g) :: rest, k, e =>
    if k = k' then (k, groupAdd g e) :: rest else (k', g) :: groupUpsert rest k e

/-- Grouping all store entries by `(reqChannel, sourceName)`
(src/index.js lines 146–170), in store iteration order. -/
def errorGroups (entries : List ErrorEntry) : List (String × Group) :=
  entries.foldl (fun gs e => groupUpsert gs (_createErrorGroupKey e.reqChannel e.sourceName) e) []

/-- The sequential dispatch loop (src/index.js lines 172–175): for each
group, render the report and `await this.logError(reqChannel, message)`.
`douts i` is the settled outcome of the `i`-th awaited dispatch; a
rejection aborts the remaining groups (the loop body is not individually
guarded).  Returns the `(reqChannel, report text)` pairs handed to
`logError`, and whether the cycle failed.  A group with no entries would
throw on destructuring `errors[0]` (unreachable for groups built by
`errorGroups`). -/
def dispatchGroups (conf : Conf) (douts : Nat → Bool) : List (String × Group) → Nat → List (String × String) × Bool
  | [], _ => ([], false)
  | (_, g) :: rest, i =>
    match g.errors with
    | [] => ([], true)
    | e0 :: _ =>
      let r := _sendBatchedErrorMessage conf e0.sourceName g.errors g.totalCount
        ((g.earliestTime).getD 0) ((g.latestTime).getD 0)
      if douts i then
        let next := dispatchGroups conf douts rest (i + 1)
        ((e0.reqChannel, r.text) :: next.1, next.2)
      else ([(e0.reqChannel, r.text)], true)

structure FlushResult where
  batch : Option Store
  reports : List (String × String)
  failed : Bool

/-- `_processBatchedErrors`: early return when the store is missing or
empty; otherwise group, dispatch sequentially, and — in the `finally`
block — clear the store regardless of how the cycle went. -/
def _processBatchedErrors (conf : Conf) (batch : Option Store) (douts : Nat → Bool) : FlushResult :=
  match batch with
  | none => ⟨none, [], false⟩
  | some store =>
    if store.length = 0 then ⟨some store, [], false⟩
    else
      let allEntries := store.map fun kv => kv.2
      let gs := errorGroups allEntries
      let d := dispatchGroups conf douts gs 0
      ⟨some [], d.1, d.2⟩

/-! ## Specification-side definitions used by refinement statements -/

/-- The spec's fallback chain for the fingerprinted message text, amended
for JS truthiness: `error.message` when present and non-empty, else the
string conversion when defined and non-empty, else the literal. -/
def errorMsgSpecConv (err : JsVal) : String :=
  match err.toStrOpt with
  | some t => if t = "" then "Unknown error" else t
  | none => "Unknown error"

def errorMsgSpec (err : JsVal) : String :=
  match err.msgProp with
  | some s => if s = "" then errorMsgSpecConv err else s
  | none => errorMsgSpecConv err

/-- Largest per-type header length among a list of entries. -/
def headerMaxLen (errors : List ErrorEntry) : Nat :=
  (errors.map fun e => (typeHeader e).length).foldr Nat.max 0

/-- Largest truncation-marker length over the counts `0 … total` that can
appear for an `errors` array of length `total`. -/
def markerMaxLen (total : Nat) : Nat :=
  ((List.range (total + 1)).map fun k => (markerFor k).length).foldr Nat.max 0

/-! ## Concrete fixtures (mirroring the repository's test configuration) -/

def confT : Conf :=
  { enable := true, worker := some ("rest:ext:slack"), max_length := some 1024
    channel := "default-channel", env := some ("test")
    errorBatching := some { interval := some 5000, maxSize := some 10, maxMessageLength := some 4000 } }

/-- The test configuration with `errorBatching.maxSize = 2`. -/
def confM : Conf :=
  { confT with errorBatching := some { interval := some 5000, maxSize := some 2, maxMessageLength := some 4000 } }

/-- A configuration without `errorBatching` (batching not initialised). -/
def confNB : Conf :=
  { confT with errorBatching := none }

/-- A configuration with a tiny `errorBatching.maxMessageLength`. -/
def confS : Conf :=
  { confT with errorBatching := some { interval := none, maxSize := none, maxMessageLength := some 10 } }

/-- Stand-in for the sha1 hex digest in concrete evaluations (the model
takes the digest as an explicit function parameter). -/
def hashT : String → String := fun s => s

/-- `new Error('Test error')`. -/
def errT : JsVal := JsVal.vObj (some ("Test error")) ("Error: Test error")

def errA : JsVal := JsVal.vObj (some ("E1")) ("Error: E1")

def errB : JsVal := JsVal.vObj (some ("E2")) ("Error: E2")

def p1 : Json := Json.obj [("to", Json.str ("test1@example.com"))]

def p2 : Json := Json.obj [("to", Json.str ("test2@example.com"))]

/-- First enqueue of the C3 scenario. -/
def c3enq1 : EnqueueResult :=
  logErrorEnqueue confT hashT (some []) (some ("test-channel")) errT ("testFunction") p1 [] 0 true

/-- Second enqueue of the C3 scenario (same error, different payload). -/
def c3enq2 : EnqueueResult :=
  logErrorEnqueue confT hashT c3enq1.batch (some ("test-channel")) errT ("testFunction") p2 [] 0 true

/-- First enqueue towards `maxSize = 2` (C2 failing input). -/
def c2enq1 : EnqueueResult :=
  logErrorEnqueue confM hashT (some []) (some ("ch")) errA ("f") p1 [] 0 true

/-- Second enqueue: the store size reaches `maxSize = 2`. -/
def c2enq2 : EnqueueResult :=
  logErrorEnqueue confM hashT c2enq1.batch (some ("ch")) errB ("f") p2 [] 0 true

/-- Entry under channel `"a:b"` and source `"c"` (C4 counterexample). -/
def eColA : ErrorEntry :=
  { errorMessage := some ("m1"), sourceName := "c", reqChannel := "a:b"
    payloads := [⟨Json.str ("x"), []⟩], count := 1, firstSeen := 0, lastSeen := 0 }

/-- Entry under channel `"a"` and source `"b:c"`: a different pair whose
group key collides with `eColA`'s. -/
def eColB : ErrorEntry :=
  { errorMessage := some ("m2"), sourceName := "b:c", reqChannel := "a"
    payloads := [⟨Json.str ("y"), []⟩], count := 1, firstSeen := 0, lastSeen := 0 }

/-- An entry whose per-type header line is long relative to a tiny
`maxMessageLength` (C5 counterexample, C5/C10 witnesses). -/
def entL : ErrorEntry :=
  { errorMessage := some ("very long error message indeed"), sourceName := "s", reqChannel := "c"
    payloads := [⟨Json.str ("p"), []⟩], count := 1, firstSeen := 0, lastSeen := 0 }

/-- A minimal entry for flush witnesses. -/
def entW : ErrorEntry :=
  { errorMessage := some ("w"), sourceName := "f", reqChannel := "ch"
    payloads := [⟨Json.str ("z"), []⟩], count := 1, firstSeen := 0, lastSeen := 0 }

/-! ## Claim C2 — eager flush at `maxSize`

`logErrorEnqueue` (src/index.js lines 94–138) contains no `maxSize` check
and never invokes `_processBatchedErrors`; the capacity trigger present in
an earlier revision of the facility was dropped, although
`errorBatching.maxSize` is still a documented configuration option. -/

/-- Claim C2 (failing input): with `errorBatching.maxSize = 2`, two
enqueues of distinct errors bring the store size to `maxSize`, yet no
flush was triggered from the enqueue path — both enqueues resolve
normally, neither performs any dispatch (no fallback, no flush call exists
in the enqueue code), and both entries are still sitting in the store. -/
theorem c2_no_eager_flush :
    (c2enq2.batch.getD []).length = 2 ∧
    c2enq1.fallback = none ∧ c2enq2.fallback = none ∧
    c2enq1.result = Except.ok () ∧ c2enq2.result = Except.ok () :=
  ⟨by decide, rfl, rfl, rfl, rfl⟩

/-! ## Claim C3 — the duplicate-enqueue scenario

After enqueueing `Error('Test error')` twice under
`('test-channel', 'testFunction')` with two different payloads, the code
leaves one entry with `count = 2` but only **2** payload-window entries:
entry creation (src/index.js lines 110–124) stores the initial payload
once and returns early, whereas the repository's own test
(`should increment count for duplicate errors`) and the spec expect the
initial payload to be counted twice (3 window entries).  The flush does
send exactly one report containing `2x`. -/

/-- Claim C3 (evaluation at the failing input): one stored entry,
`count = 2`, payload window of length **2** (not 3), and exactly one
dispatched report whose text contains `2x`. -/
theorem c3_scenario_evaluation :
    c3enq2.batch = some [(("test-channel:testFunction:Test error"),
      { errorMessage := some ("Test error"), sourceName := "testFunction"
        reqChannel := "test-channel", payloads := [⟨p1, []⟩, ⟨p2, []⟩]
        count := 2, firstSeen := 0, lastSeen := 0 })] ∧
    (_processBatchedErrors confT c3enq2.batch (fun _ => true)).reports.length = 1 ∧
    (∀ r ∈ (_processBatchedErrors confT c3enq2.batch (fun _ => true)).reports,
      (("2x").data).IsInfix r.2.data) :=
  ⟨rfl, by decide, by decide⟩

/-! ## Claim C6 — the store is cleared by every completed flush run -/

/-- Claim C6: a run of `_processBatchedErrors` on a non-empty store always
leaves the store cleared, whatever the dispatch outcomes were — the
`clear()` sits in the `finally` block. -/
theorem c6_flush_clears_store (conf : Conf) (store : Store) (douts : Nat → Bool)
    (h : store ≠ []) :
    (_processBatchedErrors conf (some store) douts).batch = some [] := by
  have hl : ¬ store.length = 0 := by
    simpa [List.length_eq_zero] using h
  simp [_processBatchedErrors, hl]

/-- Claim C6 witness: a singleton store flushed while the dispatch
rejects is still cleared. -/
theorem c6_witness :
    ([(("ch:f:w"), entW)] : Store) ≠ [] ∧
    (_processBatchedErrors confT (some [(("ch:f:w"), entW)]) (fun _ => false)).batch = some [] := by
  have h : ([(("ch:f:w"), entW)] : Store) ≠ [] := by simp
  exact ⟨h, c6_flush_clears_store confT _ _ h⟩

/-! ## Claim C9 — the dispatched text respects the `max_length` cap -/

/-- `rawText.slice(0, n)` (applied when the raw text is over the cap)
yields at most `n` characters. -/
theorem length_slice_le (s : String) (n : Nat) :
    (if s.length > n then String.mk (s.data.take n) else s).length ≤ n := by
  split
  · show (s.data.take n).length ≤ n
    rw [List.length_take]
    exact Nat.min_le_left n s.data.length
  · omega

/-- Claim C9: when dispatch is enabled, the text handed to the outbound
transport by `message` — environment prefix included, since the prefix is
prepended before truncation — has length at most the configured
`max_length` (`jsOrNat conf.max_length 1024`, i.e. 1024 by default). -/
theorem c9_message_respects_max_length (conf : Conf) (reqChannel : Option String)
    (msg : String) (h : conf.enable = true) :
    ∃ sp, message conf reqChannel msg = some sp ∧
      sp.text.length ≤ jsOrNat conf.max_length 1024 := by
  unfold message
  rw [h, if_pos rfl]
  refine ⟨_, rfl, ?_⟩
  exact length_slice_le _ _

/-- Claim C9 witness at the test configuration. -/
theorem c9_witness :
    confT.enable = true ∧
    ∃ sp, message confT (some ("general")) ("hello") = some sp ∧
      sp.text.length ≤ jsOrNat confT.max_length 1024 :=
  ⟨rfl, c9_message_respects_max_length confT (some ("general")) ("hello") rfl⟩

/-! ## Claim C1 — `logErrorEnqueue` never rejects

Not quite: every internal failure inside the batching path is caught by
the `try`/`catch` and degrades to a direct-log attempt with the original
arguments, but both fallback sites `await`/return `this.logError(...)`
itself, so a rejection of that outbound dispatch propagates to the caller
of `logErrorEnqueue`. -/

/-- Claim C1 counterexample: with batching not initialised and an enabled
configuration whose transport call rejects, the promise returned by
`logErrorEnqueue` rejects. -/
theorem c1_counterexample :
    (logErrorEnqueue confNB hashT none (some ("ch")) errT ("src") p1 [] 0 false).result
      = Except.error () := rfl

/-- Claim C1 (amended): `logErrorEnqueue` rejects exactly when a direct-log
fallback ran while dispatch was enabled and the transport call rejected;
and every fallback receives the original error, source, payload and
extras, with the original channel (possibly normalised to the configured
default). -/
theorem c1_enqueue_rejection_characterisation (conf : Conf) (hash : String → String)
    (batch : Option Store) (reqChannel0 : Option String) (err : JsVal) (sourceName : String)
    (payload : Json) (extra : List Json) (now : Int) (dispatchOk : Bool) :
    ((logErrorEnqueue conf hash batch reqChannel0 err sourceName payload extra now dispatchOk).result
        = Except.error () ↔
      conf.enable = true ∧ dispatchOk = false ∧
        (logErrorEnqueue conf hash batch reqChannel0 err sourceName payload extra now dispatchOk).fallback.isSome = true) ∧
    (∀ fb, (logErrorEnqueue conf hash batch reqChannel0 err sourceName payload extra now dispatchOk).fallback = some fb →
      fb.err = err ∧ fb.sourceName = sourceName ∧ fb.payload = payload ∧ fb.extras = extra ∧
        (fb.reqChannel = reqChannel0 ∨ fb.reqChannel = some (jsOrS reqChannel0 conf.channel))) := by
  rcases batch with _ | store
  · constructor
    · simp only [logErrorEnqueue, logErrorOutcome]
      cases hc : conf.enable <;> cases dispatchOk <;> simp
    · intro fb hfb
      simp only [logErrorEnqueue] at hfb
      injection hfb with hfb
      subst hfb
      exact ⟨rfl, rfl, rfl, rfl, Or.inl rfl⟩
  · simp only [logErrorEnqueue]
    rcases hget : storeGet store (_createErrorKey hash (jsOrS reqChannel0 conf.channel) err sourceName) with _ | entry
    · rcases hmsg : err.msgPropStrict with u | m
      · constructor
        · simp only [logErrorOutcome]
          cases hc : conf.enable <;> cases dispatchOk <;> simp
        · intro fb hfb
          simp only [] at hfb
          injection hfb with hfb
          subst hfb
          exact ⟨rfl, rfl, rfl, rfl, Or.inr rfl⟩
      · constructor
        · simp
        · intro fb hfb
          simp at hfb
    · constructor
      · simp
      · intro fb hfb
        simp at hfb

/-- Claim C1 witness: an internal failure (entry creation reads
`err.message` on a `null` error) is caught and, the fallback dispatch
resolving, the enqueue resolves. -/
theorem c1_witness :
    (logErrorEnqueue confT hashT (some []) none JsVal.vNull ("src") p1 [] 0 true).result
      = Except.ok () := by
  have h := (c1_enqueue_rejection_characterisation confT hashT (some []) none JsVal.vNull
    ("src") p1 [] 0 true).1
  rcases hE : (logErrorEnqueue confT hashT (some []) none JsVal.vNull ("src") p1 [] 0 true).result with e | a
  · obtain ⟨⟩ := e
    exact absurd (h.mp hE).2.1 (by simp)
  · obtain ⟨⟩ := a
    rfl

/-! ## Claim C8 — `_createErrorKey` is pure, total, and hashes the fallback chain

The function is a total Lean function of `(channel, err, source)` and the
digest function, so purity and determinism are structural.  The message
selection, however, follows JS truthiness, not presence: a present but
**empty** `error.message` is skipped in favour of the string conversion
(`err?.message || err?.toString() || 'Unknown error'`). -/

/-- Claim C8 counterexample: an error whose `message` property is present
(the empty string) still has its `toString()` text selected for hashing —
the claim's "error.message when present" fails for `new Error('')`-like
values. -/
theorem c8_counterexample :
    (JsVal.vObj (some ("")) ("boom")).msgProp = some ("") ∧
    errorMsg (JsVal.vObj (some ("")) ("boom")) = ("boom") ∧
    ("boom") ≠ ("") :=
  ⟨rfl, rfl, by decide⟩

/-- Claim C8 (amended): `_createErrorKey` is pure and total (a total
function in the model; the kernel of the claim), and for every channel,
source and error value the key is the group key followed by the digest of
the text selected by the amended chain `errorMsgSpec`: `error.message`
when present and non-empty, else the string conversion when defined and
non-empty, else the literal. -/
theorem c8_key_structure (hash : String → String) (reqChannel : String) (err : JsVal)
    (sourceName : String) :
    _createErrorKey hash reqChannel err sourceName
      = _createErrorGroupKey reqChannel sourceName ++ (":") ++ hash (errorMsgSpec err) := by
  have hsel : errorMsg err = errorMsgSpec err := by
    cases err with
    | vNull => rfl
    | vUndef => rfl
    | vStr s =>
      by_cases hs : s = "" <;>
        simp [errorMsg, errorMsgSpec, errorMsgSpecConv, jsOrS, JsVal.msgProp, JsVal.toStrOpt, hs]
    | vObj m t =>
      rcases m with _ | s <;>
        simp [errorMsg, errorMsgSpec, errorMsgSpecConv, jsOrS, JsVal.msgProp, JsVal.toStrOpt]
  rw [_createErrorKey, hsel]

/-! ## Claim C7 — the payload window is the sliding 3-window -/

/-- Pushing onto a window that is the last-3 suffix of a history `xs`
yields the last-3 suffix of `xs ++ [x]`. -/
theorem pushPayloadWindow_drop (xs : List PayloadItem) (x : PayloadItem) :
    pushPayloadWindow (xs.drop (xs.length - 3)) x
      = (xs ++ [x]).drop ((xs ++ [x]).length - 3) := by
  rcases le_or_lt xs.length 2 with h | h
  · have h0 : xs.length - 3 = 0 := by omega
    have h1 : (xs ++ [x]).length - 3 = 0 := by
      rw [List.length_append]
      simp
      omega
    rw [h0, h1, List.drop_zero, List.drop_zero]
    unfold pushPayloadWindow
    rw [if_neg]
    rw [List.length_append]
    simp
    omega
  · have hw : (xs.drop (xs.length - 3)).length = 3 := by
      rw [List.length_drop]
      omega
    have hne : xs.drop (xs.length - 3) ≠ [] := by
      intro hc
      rw [hc] at hw
      simp at hw
    unfold pushPayloadWindow
    rw [if_pos]
    · rw [List.tail_append_singleton_of_ne_nil hne, List.tail_drop]
      have h2 : (xs ++ [x]).length - 3 = xs.length - 2 := by
        rw [List.length_append]
        simp
      rw [h2, List.drop_append_of_le_length (by omega)]
      have h3 : xs.length - 3 + 1 = xs.length - 2 := by omega
      rw [h3]
    · rw [List.length_append, hw]
      simp

/-- One enqueue step on a singleton store holding the entry for the same
fingerprint performs the update path: bump `count`, refresh `lastSeen`,
push onto the window. -/
theorem enqueue_update_singleton (conf : Conf) (hash : String → String)
    (reqChannel0 : Option String) (m ts src : String) (now : Int)
    (w : List PayloadItem) (c : Nat) (f l : Int) (p : Json) (ex : List Json) :
    (logErrorEnqueue conf hash
        (some [(_createErrorKey hash (jsOrS reqChannel0 conf.channel) (JsVal.vObj (some m) ts) src,
          ⟨some m, src, jsOrS reqChannel0 conf.channel, w, c, f, l⟩)])
        reqChannel0 (JsVal.vObj (some m) ts) src p ex now true).batch
      = some [(_createErrorKey hash (jsOrS reqChannel0 conf.channel) (JsVal.vObj (some m) ts) src,
          ⟨some m, src, jsOrS reqChannel0 conf.channel, pushPayloadWindow w ⟨p, ex⟩, c + 1, f, now⟩)] := by
  simp [logErrorEnqueue, storeGet, storeSet]

/-- Folding further contributions over a singleton store whose entry's
window is the last-3 suffix of the history `xs`. -/
theorem enqueue_fold_window (conf : Conf) (hash : String → String)
    (reqChannel0 : Option String) (m ts src : String) (now : Int)
    (cs : List (Json × List Json)) :
    ∀ (xs : List PayloadItem) (c : Nat),
      cs.foldl (fun b cc => (logErrorEnqueue conf hash b reqChannel0
          (JsVal.vObj (some m) ts) src cc.1 cc.2 now true).batch)
        (some [(_createErrorKey hash (jsOrS reqChannel0 conf.channel) (JsVal.vObj (some m) ts) src,
          ⟨some m, src, jsOrS reqChannel0 conf.channel, xs.drop (xs.length - 3), c, now, now⟩)])
      = some [(_createErrorKey hash (jsOrS reqChannel0 conf.channel) (JsVal.vObj (some m) ts) src,
          ⟨some m, src, jsOrS reqChannel0 conf.channel,
            (xs ++ cs.map fun cc => (⟨cc.1, cc.2⟩ : PayloadItem)).drop
              ((xs ++ cs.map fun cc => (⟨cc.1, cc.2⟩ : PayloadItem)).length - 3),
            c + cs.length, now, now⟩)] := by
  induction cs with
  | nil => intro xs c; simp
  | cons c0 cs ih =>
    intro xs c
    rw [List.foldl_cons, enqueue_update_singleton, pushPayloadWindow_drop]
    have := ih (xs ++ [(⟨c0.1, c0.2⟩ : PayloadItem)]) (c + 1)
    rw [this]
    simp only [List.append_assoc, List.map_cons, List.length_cons]
    have hc : c + 1 + cs.length = c + (cs.length + 1) := by omega
    rw [hc]
    rfl

/-- Claim C7: starting from an empty store, after the contributions
`c0 :: rest` to one fingerprint the stored entry's payload window is
exactly the last `min N 3` contributions in insertion order (`N` total),
the oldest having been dropped. -/
theorem c7_payload_window (conf : Conf) (hash : String → String) (reqChannel0 : Option String)
    (m ts src : String) (now : Int) (c0 : Json × List Json) (rest : List (Json × List Json)) :
    (let err := JsVal.vObj (some m) ts
     let items := (c0 :: rest).map fun cc => (⟨cc.1, cc.2⟩ : PayloadItem)
     (c0 :: rest).foldl (fun b cc => (logErrorEnqueue conf hash b reqChannel0 err src cc.1 cc.2 now true).batch)
        (some [])
      = some [(_createErrorKey hash (jsOrS reqChannel0 conf.channel) err src,
          ⟨some m, src, jsOrS reqChannel0 conf.channel,
            items.drop (items.length - 3), items.length, now, now⟩)] ∧
     (items.drop (items.length - 3)).length = min items.length 3) := by
  constructor
  · rw [List.foldl_cons]
    have hfirst : (logErrorEnqueue conf hash (some []) reqChannel0 (JsVal.vObj (some m) ts) src
        c0.1 c0.2 now true).batch
      = some [(_createErrorKey hash (jsOrS reqChannel0 conf.channel) (JsVal.vObj (some m) ts) src,
          ⟨some m, src, jsOrS reqChannel0 conf.channel,
            ([(⟨c0.1, c0.2⟩ : PayloadItem)]).drop (([(⟨c0.1, c0.2⟩ : PayloadItem)]).length - 3),
            1, now, now⟩)] := by
      simp [logErrorEnqueue, storeGet, storeSet, JsVal.msgPropStrict]
    rw [hfirst, enqueue_fold_window]
    simp
    omega
  · rw [List.length_drop]
    simp
    omega

/-! ## Claim C4 — one report per group key

The flush dispatches exactly one report per distinct *group key*, the
string `reqChannel + ':' + sourceName`.  That is weaker than "per distinct
(channel, source) pair": two different pairs whose joined strings
coincide — channels or sources containing `':'` — are merged into a
single report. -/

theorem groupUpsert_keys (gs : List (String × Group)) (k : String) (e : ErrorEntry) :
    (groupUpsert gs k e).map Prod.fst =
      if k ∈ gs.map Prod.fst then gs.map Prod.fst else gs.map Prod.fst ++ [k] := by
  induction gs with
  | nil => simp [groupUpsert]
  | cons kg rest ih =>
    rcases kg with ⟨k', g⟩
    by_cases hk : k = k'
    · subst hk
      simp [groupUpsert]
    · have hstep : groupUpsert ((k', g) :: rest) k e = (k', g) :: groupUpsert rest k e := by
        simp [groupUpsert, hk]
      rw [hstep]
      simp only [List.map_cons, ih]
      by_cases hmem : k ∈ rest.map Prod.fst
      · rw [if_pos hmem, if_pos (by simp [hmem])]
      · rw [if_neg hmem, if_neg (by simp [hmem, hk])]
        simp

theorem groupUpsert_errors_ne_nil (gs : List (String × Group)) (k : String) (e : ErrorEntry)
    (h : ∀ kg ∈ gs, kg.2.errors ≠ []) :
    ∀ kg ∈ groupUpsert gs k e, kg.2.errors ≠ [] := by
  induction gs with
  | nil =>
    intro kg hkg
    simp only [groupUpsert, List.mem_singleton] at hkg
    subst hkg
    simp [groupAdd]
  | cons kg0 rest ih =>
    rcases kg0 with ⟨k', g⟩
    by_cases hk : k = k'
    · subst hk
      intro kg hkg
      simp only [groupUpsert, if_pos rfl] at hkg
      rcases List.mem_cons.mp hkg with hh | ht
      · subst hh
        simp [groupAdd]
      · exact h kg (List.mem_cons_of_mem _ ht)
    · intro kg hkg
      simp only [groupUpsert, if_neg hk] at hkg
      rcases List.mem_cons.mp hkg with hh | ht
      · subst hh
        exact h ((k', g)) (List.mem_cons_self _ _)
      · exact ih (fun x hx => h x (List.mem_cons_of_mem _ hx)) kg ht

theorem foldl_groupUpsert_errors_ne_nil (entries : List ErrorEntry) :
    ∀ gs, (∀ kg ∈ gs, kg.2.errors ≠ []) →
      ∀ kg ∈ entries.foldl
        (fun gs e => groupUpsert gs (_createErrorGroupKey e.reqChannel e.sourceName) e) gs,
        kg.2.errors ≠ [] := by
  induction entries with
  | nil => intro gs h kg hkg; exact h kg hkg
  | cons e rest ih =>
    intro gs h
    exact ih _ (groupUpsert_errors_ne_nil _ _ _ h)

theorem foldl_groupUpsert_keys (entries : List ErrorEntry) :
    ∀ gs : List (String × Group), (gs.map Prod.fst).Nodup →
      (((entries.foldl
          (fun gs e => groupUpsert gs (_createErrorGroupKey e.reqChannel e.sourceName) e) gs).map
            Prod.fst).Nodup ∧
        ((entries.foldl
          (fun gs e => groupUpsert gs (_createErrorGroupKey e.reqChannel e.sourceName) e) gs).map
            Prod.fst).toFinset
          = (gs.map Prod.fst).toFinset ∪
            (entries.map fun e => _createErrorGroupKey e.reqChannel e.sourceName).toFinset) := by
  induction entries with
  | nil => intro gs h; simp [h]
  | cons e rest ih =>
    intro gs h
    rw [List.foldl_cons]
    have hkeys := groupUpsert_keys gs (_createErrorGroupKey e.reqChannel e.sourceName) e
    have hnd : ((groupUpsert gs (_createErrorGroupKey e.reqChannel e.sourceName) e).map Prod.fst).Nodup := by
      rw [hkeys]
      by_cases hmem : _createErrorGroupKey e.reqChannel e.sourceName ∈ gs.map Prod.fst
      · rwa [if_pos hmem]
      · rw [if_neg hmem]
        simp [List.nodup_append, h, hmem]
    have hfin : ((groupUpsert gs (_createErrorGroupKey e.reqChannel e.sourceName) e).map Prod.fst).toFinset
        = (gs.map Prod.fst).toFinset ∪ {_createErrorGroupKey e.reqChannel e.sourceName} := by
      rw [hkeys]
      by_cases hmem : _createErrorGroupKey e.reqChannel e.sourceName ∈ gs.map Prod.fst
      · rw [if_pos hmem]
        have : _createErrorGroupKey e.reqChannel e.sourceName ∈ (gs.map Prod.fst).toFinset :=
          List.mem_toFinset.mpr hmem
        rw [Finset.union_comm]
        exact (Finset.union_eq_right.mpr (by simpa using this)).symm
      · rw [if_neg hmem]
        simp
    obtain ⟨ihnd, ihfin⟩ := ih _ hnd
    refine ⟨ihnd, ?_⟩
    rw [ihfin, hfin]
    simp only [List.map_cons, List.toFinset_cons]
    rw [Finset.union_assoc]
    congr 1

theorem dispatchGroups_all_ok_length (conf : Conf) (gs : List (String × Group)) :
    ∀ i, (∀ kg ∈ gs, kg.2.errors ≠ []) →
      (dispatchGroups conf (fun _ => true) gs i).1.length = gs.length := by
  induction gs with
  | nil => intro i _; rfl
  | cons kg rest ih =>
    intro i h
    rcases kg with ⟨k, g⟩
    rcases hg : g.errors with _ | ⟨e0, tl⟩
    · exact absurd hg (h ((k, g)) (List.mem_cons_self _ _))
    · simp only [dispatchGroups, hg]
      simp [ih (i + 1) (fun kg hkg => h kg (List.mem_cons_of_mem _ hkg))]

/-- Claim C4 (amended): with every dispatch resolving, the flush emits
exactly one report per *distinct group key* occurring among the stored
entries (`_createErrorGroupKey`, i.e. `reqChannel + ':' + sourceName`). -/
theorem c4_one_report_per_group_key (conf : Conf) (store : Store) :
    (_processBatchedErrors conf (some store) (fun _ => true)).reports.length
      = ((store.map fun kv => _createErrorGroupKey kv.2.reqChannel kv.2.sourceName).dedup).length := by
  rcases store with _ | ⟨kv0, rest⟩
  · rfl
  · simp only [_processBatchedErrors]
    rw [if_neg (by simp)]
    dsimp only
    have hne0 := foldl_groupUpsert_errors_ne_nil ((kv0 :: rest).map fun kv => kv.2) []
      (by intro kg hkg; exact absurd hkg (List.not_mem_nil kg))
    have hne : ∀ kg ∈ errorGroups ((kv0 :: rest).map fun kv => kv.2), kg.2.errors ≠ [] :=
      fun kg hkg => hne0 kg hkg
    rw [dispatchGroups_all_ok_length conf _ 0 hne]
    obtain ⟨hnd, hfin⟩ := foldl_groupUpsert_keys ((kv0 :: rest).map fun kv => kv.2) [] (by simp)
    have hEG : errorGroups ((kv0 :: rest).map fun kv => kv.2)
        = ((kv0 :: rest).map fun kv => kv.2).foldl
            (fun gs e => groupUpsert gs (_createErrorGroupKey e.reqChannel e.sourceName) e) [] := rfl
    rw [hEG, ← List.length_map _ Prod.fst, ← hnd.dedup, ← List.card_toFinset, hfin]
    simp [List.map_map, List.card_toFinset, Function.comp]
    rw [← List.card_toFinset, List.toFinset_cons]
    congr 1

/-- Claim C4 counterexample: the distinct pairs `("a:b", "c")` and
`("a", "b:c")` share the group key `"a:b:c"`, so a store holding one
entry of each yields a single merged report instead of two. -/
theorem c4_counterexample :
    (eColA.reqChannel, eColA.sourceName) ≠ (eColB.reqChannel, eColB.sourceName) ∧
    (_processBatchedErrors confT
        (some [(("a:b:c:m1"), eColA), (("a:b:c:m2"), eColB)]) (fun _ => true)).reports.length = 1 :=
  ⟨by decide, by decide⟩

/-! ## Claims C5 and C10 — truncation behaviour of the formatter

The length guard sits only in front of payload lines; the summary lines,
the per-type bullet/`Payloads:` headers and the trailing note are appended
unguarded.  So once truncation hits, the marker is the final content, and
every appended payload line kept the total within the bound — but the
report can exceed `maxMessageLength` by the unguarded header content, not
just by the marker. -/

theorem le_foldr_max {l : List Nat} {x : Nat} (h : x ∈ l) : x ≤ l.foldr Nat.max 0 := by
  induction l with
  | nil => exact absurd h (List.not_mem_nil x)
  | cons a t ih =>
    rcases List.mem_cons.mp h with h1 | h2
    · subst h1
      exact Nat.le_max_left _ _
    · exact le_trans (ih h2) (Nat.le_max_right _ _)

theorem typeHeader_le_headerMaxLen {e : ErrorEntry} {errors : List ErrorEntry} (h : e ∈ errors) :
    (typeHeader e).length ≤ headerMaxLen errors :=
  le_foldr_max (List.mem_map_of_mem _ h)

theorem markerFor_le_markerMaxLen {k total : Nat} (h : k ≤ total) :
    (markerFor k).length ≤ markerMaxLen total :=
  le_foldr_max (List.mem_map_of_mem _ (List.mem_range.mpr (by omega)))

theorem renderPayloads_spec (maxLen : Nat) (marker : String) (items : List PayloadItem) :
    ∀ msg : String,
      ((renderPayloads maxLen marker items msg).2 = true →
        (renderPayloads maxLen marker items msg).1.length
            ≤ Nat.max msg.length maxLen + marker.length ∧
          marker.data.IsSuffix (renderPayloads maxLen marker items msg).1.data) ∧
      ((renderPayloads maxLen marker items msg).2 = false →
        (items = [] ∧ (renderPayloads maxLen marker items msg).1 = msg) ∨
          (renderPayloads maxLen marker items msg).1.length ≤ maxLen) := by
  induction items with
  | nil =>
    intro msg
    constructor
    · intro h
      exact absurd h (by simp [renderPayloads])
    · intro _
      exact Or.inl ⟨rfl, rfl⟩
  | cons item rest ih =>
    intro msg
    by_cases hguard : msg.length + (payloadLine item).length > maxLen
    · have hr : renderPayloads maxLen marker (item :: rest) msg = (msg ++ marker, true) := by
        simp [renderPayloads, hguard]
      rw [hr]
      constructor
      · intro _
        constructor
        · rw [String.length_append]
          exact Nat.add_le_add_right (Nat.le_max_left _ _) _
        · rw [String.data_append]
          exact List.suffix_append _ _
      · intro hfalse
        exact absurd hfalse (by simp)
    · have hr : renderPayloads maxLen marker (item :: rest) msg
          = renderPayloads maxLen marker rest (msg ++ payloadLine item) := by
        simp [renderPayloads, hguard]
      rw [hr]
      have hlen : (msg ++ payloadLine item).length ≤ maxLen := by
        rw [String.length_append]
        omega
      obtain ⟨ht, hf⟩ := ih (msg ++ payloadLine item)
      constructor
      · intro h
        obtain ⟨hb, hs⟩ := ht h
        refine ⟨?_, hs⟩
        have hmeq : Nat.max (msg ++ payloadLine item).length maxLen = maxLen :=
          le_antisymm (Nat.max_le.mpr ⟨hlen, le_refl _⟩) (Nat.le_max_right _ _)
        rw [hmeq] at hb
        exact le_trans hb (Nat.add_le_add_right (Nat.le_max_right _ _) _)
      · intro h
        rcases hf h with ⟨_, heq⟩ | hle
        · right
          rw [heq]
          exact hlen
        · right
          exact hle

theorem renderTypes_truncAt_spec (maxLen total : Nat) (slice : List ErrorEntry) :
    ∀ (i0 : Nat) (msg : String) (i : Nat),
      (renderTypes maxLen total slice i0 msg).truncAt = some i →
        i0 ≤ i ∧ i < i0 + slice.length ∧
        (renderTypes maxLen total slice i0 msg).truncated = true ∧
        (markerFor (total - i)).data.IsSuffix (renderTypes maxLen total slice i0 msg).text.data := by
  induction slice with
  | nil =>
    intro i0 msg i h
    exact absurd h (by simp [renderTypes])
  | cons e rest ih =>
    intro i0 msg i h
    cases htr : (renderPayloads maxLen (markerFor (total - i0)) e.payloads (msg ++ typeHeader e)).2 with
    | true =>
      have hr : renderTypes maxLen total (e :: rest) i0 msg
          = ⟨(renderPayloads maxLen (markerFor (total - i0)) e.payloads (msg ++ typeHeader e)).1,
              true, some i0⟩ := by
        simp [renderTypes, htr]
      rw [hr] at h ⊢
      have hi : i0 = i := by simpa using h
      subst hi
      refine ⟨le_refl _, by simp [List.length_cons], rfl, ?_⟩
      exact ((renderPayloads_spec maxLen (markerFor (total - i0)) e.payloads (msg ++ typeHeader e)).1 htr).2
    | false =>
      have hr : renderTypes maxLen total (e :: rest) i0 msg
          = renderTypes maxLen total rest (i0 + 1)
              (renderPayloads maxLen (markerFor (total - i0)) e.payloads (msg ++ typeHeader e)).1 := by
        simp [renderTypes, htr]
      rw [hr] at h ⊢
      obtain ⟨h1, h2, h3, h4⟩ := ih (i0 + 1) _ i h
      refine ⟨by omega, ?_, h3, h4⟩
      simp only [List.length_cons]
      omega

theorem renderTypes_bound (maxLen total : Nat) (slice : List ErrorEntry) :
    ∀ (i0 : Nat) (msg : String) (B : Nat),
      msg.length ≤ Nat.max B maxLen →
      (∀ e ∈ slice, e.payloads ≠ []) →
      (renderTypes maxLen total slice i0 msg).text.length
          ≤ Nat.max B maxLen + headerMaxLen slice + markerMaxLen total ∧
        ((renderTypes maxLen total slice i0 msg).truncated = false →
          (renderTypes maxLen total slice i0 msg).text.length ≤ Nat.max B maxLen) := by
  induction slice with
  | nil =>
    intro i0 msg B hm _
    constructor
    · show msg.length ≤ _
      omega
    · intro _
      exact hm
  | cons e rest ih =>
    intro i0 msg B hm hp
    cases htr : (renderPayloads maxLen (markerFor (total - i0)) e.payloads (msg ++ typeHeader e)).2 with
    | true =>
      have hr : renderTypes maxLen total (e :: rest) i0 msg
          = ⟨(renderPayloads maxLen (markerFor (total - i0)) e.payloads (msg ++ typeHeader e)).1,
              true, some i0⟩ := by
        simp [renderTypes, htr]
      rw [hr]
      obtain ⟨hb, _⟩ := (renderPayloads_spec maxLen (markerFor (total - i0)) e.payloads
        (msg ++ typeHeader e)).1 htr
      constructor
      · have h2 : (typeHeader e).length ≤ headerMaxLen (e :: rest) :=
          typeHeader_le_headerMaxLen (List.mem_cons_self _ _)
        have h3 : (markerFor (total - i0)).length ≤ markerMaxLen total :=
          markerFor_le_markerMaxLen (Nat.sub_le _ _)
        have h4 : Nat.max (msg ++ typeHeader e).length maxLen
            ≤ Nat.max B maxLen + (typeHeader e).length := by
          refine Nat.max_le.mpr ⟨?_, ?_⟩
          · rw [String.length_append]
            exact Nat.add_le_add_right hm _
          · exact le_trans (Nat.le_max_right B maxLen) (Nat.le_add_right _ _)
        show (renderPayloads _ _ _ _).1.length ≤ _
        omega
      · intro hfalse
        exact absurd hfalse (by simp)
    | false =>
      have hr : renderTypes maxLen total (e :: rest) i0 msg
          = renderTypes maxLen total rest (i0 + 1)
              (renderPayloads maxLen (markerFor (total - i0)) e.payloads (msg ++ typeHeader e)).1 := by
        simp [renderTypes, htr]
      rw [hr]
      have hfspec := (renderPayloads_spec maxLen (markerFor (total - i0)) e.payloads
        (msg ++ typeHeader e)).2 htr
      rcases hfspec with ⟨hnil, _⟩ | hle
      · exact absurd hnil (hp e (List.mem_cons_self _ _))
      · have hm' : (renderPayloads maxLen (markerFor (total - i0)) e.payloads
            (msg ++ typeHeader e)).1.length ≤ Nat.max B maxLen :=
          le_trans hle (Nat.le_max_right _ _)
        obtain ⟨ih1, ih2⟩ := ih (i0 + 1) _ B hm' (fun x hx => hp x (List.mem_cons_of_mem _ hx))
        constructor
        · refine le_trans ih1 ?_
          have hhd : headerMaxLen rest ≤ headerMaxLen (e :: rest) := Nat.le_max_right _ _
          omega
        · exact ih2

theorem renderTypes_truncated_isSome (maxLen total : Nat) (slice : List ErrorEntry) :
    ∀ (i0 : Nat) (msg : String),
      (renderTypes maxLen total slice i0 msg).truncated = true →
      (renderTypes maxLen total slice i0 msg).truncAt.isSome = true := by
  induction slice with
  | nil =>
    intro i0 msg h
    exact absurd h (by simp [renderTypes])
  | cons e rest ih =>
    intro i0 msg h
    cases htr : (renderPayloads maxLen (markerFor (total - i0)) e.payloads (msg ++ typeHeader e)).2 with
    | true =>
      have hr : renderTypes maxLen total (e :: rest) i0 msg
          = ⟨(renderPayloads maxLen (markerFor (total - i0)) e.payloads (msg ++ typeHeader e)).1,
              true, some i0⟩ := by
        simp [renderTypes, htr]
      rw [hr]
      rfl
    | false =>
      have hr : renderTypes maxLen total (e :: rest) i0 msg
          = renderTypes maxLen total rest (i0 + 1)
              (renderPayloads maxLen (markerFor (total - i0)) e.payloads (msg ++ typeHeader e)).1 := by
        simp [renderTypes, htr]
      rw [hr] at h ⊢
      exact ih _ _ h

/-- Claim C5 (amended): once appending the next payload line would push the
total past the configured `maxMessageLength`, the truncation marker is
appended and no further content follows (the marker is a suffix of the
report); every payload line that was appended kept the total within the
bound, so the final length is bounded by the larger of the summary-header
length and the bound, plus the longest unguarded per-type header among the
rendered types, the marker, and the trailing more-types note. -/
theorem c5_truncation_bound (conf : Conf) (sourceName : String) (errors : List ErrorEntry)
    (totalErrors : Nat) (earliestTime latestTime : Int)
    (hp : ∀ e ∈ errors, e.payloads ≠ []) :
    (_sendBatchedErrorMessage conf sourceName errors totalErrors earliestTime latestTime).text.length
        ≤ Nat.max (summaryHeader sourceName totalErrors errors.length
              (_formatTimeRange earliestTime latestTime)).length
            (jsOrNat (conf.errorBatching.bind fun eb => eb.maxMessageLength) 4000)
          + headerMaxLen (errors.take 10) + markerMaxLen errors.length
          + (moreTypesNote (errors.length - 10)).length ∧
    ((_sendBatchedErrorMessage conf sourceName errors totalErrors earliestTime latestTime).truncated = true →
      ∃ k, k ≤ errors.length ∧
        (markerFor k).data.IsSuffix
          (_sendBatchedErrorMessage conf sourceName errors totalErrors earliestTime latestTime).text.data) := by
  have hp10 : ∀ e ∈ errors.take 10, e.payloads ≠ [] := fun e he => hp e (List.take_subset _ _ he)
  obtain ⟨hb, hnt⟩ := renderTypes_bound
    (jsOrNat (conf.errorBatching.bind fun eb => eb.maxMessageLength) 4000) errors.length
    (errors.take 10) 0
    (summaryHeader sourceName totalErrors errors.length (_formatTimeRange earliestTime latestTime))
    (summaryHeader sourceName totalErrors errors.length (_formatTimeRange earliestTime latestTime)).length
    (Nat.le_max_left _ _) hp10
  have htrsuf : ∀ i, (renderTypes
        (jsOrNat (conf.errorBatching.bind fun eb => eb.maxMessageLength) 4000) errors.length
        (errors.take 10) 0
        (summaryHeader sourceName totalErrors errors.length (_formatTimeRange earliestTime latestTime))).truncAt = some i →
      ∃ k, k ≤ errors.length ∧
        (markerFor k).data.IsSuffix (renderTypes
          (jsOrNat (conf.errorBatching.bind fun eb => eb.maxMessageLength) 4000) errors.length
          (errors.take 10) 0
          (summaryHeader sourceName totalErrors errors.length (_formatTimeRange earliestTime latestTime))).text.data := by
    intro i hi
    obtain ⟨_, _, _, hsuf⟩ := renderTypes_truncAt_spec _ _ _ _ _ _ hi
    exact ⟨errors.length - i, Nat.sub_le _ _, hsuf⟩
  simp only [_sendBatchedErrorMessage]
  split
  · next hc =>
    constructor
    · show ((renderTypes _ _ _ _ _).text ++ moreTypesNote (errors.length - 10)).length ≤ _
      rw [String.length_append]
      have := hnt hc.2
      omega
    · intro htr
      exact absurd htr (by simp [hc.2])
  · next hc =>
    constructor
    · omega
    · intro htr
      rcases hAt : (renderTypes
          (jsOrNat (conf.errorBatching.bind fun eb => eb.maxMessageLength) 4000) errors.length
          (errors.take 10) 0
          (summaryHeader sourceName totalErrors errors.length (_formatTimeRange earliestTime latestTime))).truncAt with _ | i
      · exact absurd (renderTypes_truncated_isSome _ _ _ _ _ htr) (by simp [hAt])
      · exact htrsuf i hAt

/-- Claim C5 counterexample: with `maxMessageLength = 10` and a single
error type whose header line is long, the rendered report is truncated yet
exceeds the bound by far more than the marker's length — the claim's
"exceeds the limit by at most the truncation marker" fails. -/
theorem c5_counterexample :
    (_sendBatchedErrorMessage confS ("s") [entL] 1 0 0).truncated = true ∧
    (_sendBatchedErrorMessage confS ("s") [entL] 1 0 0).text.length
      > jsOrNat (confS.errorBatching.bind fun eb => eb.maxMessageLength) 4000
        + (markerFor 1).length :=
  ⟨rfl, by decide⟩

/-- Claim C5 witness. -/
theorem c5_witness :
    (∀ e ∈ [entL], e.payloads ≠ []) ∧
    ((_sendBatchedErrorMessage confS ("s") [entL] 1 0 0).text.length
        ≤ Nat.max (summaryHeader ("s") 1 ([entL] : List ErrorEntry).length (_formatTimeRange 0 0)).length
            (jsOrNat (confS.errorBatching.bind fun eb => eb.maxMessageLength) 4000)
          + headerMaxLen (([entL] : List ErrorEntry).take 10) + markerMaxLen ([entL] : List ErrorEntry).length
          + (moreTypesNote (([entL] : List ErrorEntry).length - 10)).length ∧
      ((_sendBatchedErrorMessage confS ("s") [entL] 1 0 0).truncated = true →
        ∃ k, k ≤ ([entL] : List ErrorEntry).length ∧
          (markerFor k).data.IsSuffix
            (_sendBatchedErrorMessage confS ("s") [entL] 1 0 0).text.data)) := by
  have hp : ∀ e ∈ ([entL] : List ErrorEntry), e.payloads ≠ [] := by
    intro e he
    rw [List.mem_singleton] at he
    subst he
    exact List.cons_ne_nil _ _
  exact ⟨hp, c5_truncation_bound confS ("s") [entL] 1 0 0 hp⟩

/-- Claim C10: when truncation hits while rendering the type at zero-based
index `i`, the marker's count is `errors.length - i = (errors.drop i).length`
— the count of the remaining types *including* the partially rendered
current one — and that marker ends the report. -/
theorem c10_marker_count (conf : Conf) (sourceName : String) (errors : List ErrorEntry)
    (totalErrors : Nat) (earliestTime latestTime : Int) (i : Nat)
    (h : (_sendBatchedErrorMessage conf sourceName errors totalErrors earliestTime latestTime).truncAt
      = some i) :
    i < 10 ∧ i < errors.length ∧ errors.length - i = (errors.drop i).length ∧ 1 ≤ errors.length - i ∧
    (markerFor (errors.length - i)).data.IsSuffix
      (_sendBatchedErrorMessage conf sourceName errors totalErrors earliestTime latestTime).text.data := by
  simp only [_sendBatchedErrorMessage] at h ⊢
  split at h
  · next hc =>
    obtain ⟨h1, h2, h3, h4⟩ := renderTypes_truncAt_spec _ _ _ _ _ _ h
    exact absurd hc.2 (by simp [h3])
  · next hc =>
    obtain ⟨h1, h2, h3, h4⟩ := renderTypes_truncAt_spec _ _ _ _ _ _ h
    rw [List.length_take] at h2
    split
    · next hc2 => exact absurd hc2 hc
    · next hc2 =>
      refine ⟨by omega, by omega, (List.length_drop _ _).symm, by omega, h4⟩

/-- Claim C10 witness: the tiny-bound fixture truncates at index 0 with
marker count `1 = errors.length - 0`. -/
theorem c10_witness :
    (_sendBatchedErrorMessage confS ("s") [entL] 1 0 0).truncAt = some 0 ∧
    (0 < 10 ∧ 0 < ([entL] : List ErrorEntry).length ∧
      ([entL] : List ErrorEntry).length - 0 = (([entL] : List ErrorEntry).drop 0).length ∧
      1 ≤ ([entL] : List ErrorEntry).length - 0 ∧
      (markerFor (([entL] : List ErrorEntry).length - 0)).data.IsSuffix
        (_sendBatchedErrorMessage confS ("s") [entL] 1 0 0).text.data) := by
  have h : (_sendBatchedErrorMessage confS ("s") [entL] 1 0 0).truncAt = some 0 := rfl
  exact ⟨h, c10_marker_count confS ("s") [entL] 1 0 0 0 h⟩

end GrcSlack
